import Mathlib

/-
Verification development for the label-aware augmentation pipeline of the
imitation-learning dataset code (`scripts/training/data.py`).

Images are modelled as grids of pixels, a pixel being its list of 8-bit
channel values (`List Nat`); labels as the list of parsed numeric fields,
modelled as exact rationals (`List ℚ`).  Python-exceptions are modelled by
`Option`/`Except`; the draw of `random.random()` is passed as an explicit
rational `u` with `0 ≤ u < 1`.
-/

namespace Driving

/-- A pixel: its channel values (length 3 for an RGB pixel). -/
abbrev Pixel := List Nat

/-- An image: rows of pixels. -/
abbrev ImageData := List (List Pixel)

/-- A parsed label: the list of numeric fields. -/
abbrev Label := List ℚ

/-- A (image, label) pair, the value flowing through every transform. -/
abbrev Sample := ImageData × Label

/-- `transforms.functional.hflip`: mirror the image left-to-right. -/
def hflipImage (img : ImageData) : ImageData :=
  img.map List.reverse

/-- The label update of `RandomHorizontalFlipWithLabel.__call__` (data.py
lines 75-79): two sequential conditionals with tuple assignment, each
mutating fields 2 and 3.  Reading or writing a missing index raises
(`none`), as the numpy array would. -/
def hflipLabel (label : Label) : Option Label :=
  match label[2]? with
  | none => none
  | some a2 =>
    let l1 := if a2 = 1 then (label.set 2 0).set 3 1 else label
    match l1[3]? with
    | none => none
    | some b3 => some (if b3 = 1 then (l1.set 2 1).set 3 0 else l1)

/-- `RandomHorizontalFlipWithLabel.__call__` with probability `prob` and
random draw `u` (the value of `random.random()`): if `u < prob`, flip the
image and update the label, else return both unchanged. -/
def RandomHorizontalFlipWithLabel (prob u : ℚ) (img : ImageData)
    (label : Label) : Option Sample :=
  if u < prob then
    match hflipLabel label with
    | none => none
    | some l => some (hflipImage img, l)
  else
    some (img, label)

/-- The fixed brown replacement color of `ChangeStreetColor`. -/
def brown_color : Pixel := [139, 69, 19]

/-- The lower bound vector of the grey band. -/
def lower_grey : Pixel := [100, 100, 100]

/-- The upper bound vector of the grey band. -/
def upper_grey : Pixel := [200, 200, 200]

/-- Elementwise `p >= q` followed by `np.all` over the channel axis. -/
def pixelGE (p q : Pixel) : Bool :=
  (List.zipWith (fun a b => decide (b ≤ a)) p q).all id

/-- Elementwise `p <= q` followed by `np.all` over the channel axis. -/
def pixelLE (p q : Pixel) : Bool :=
  (List.zipWith (fun a b => decide (a ≤ b)) p q).all id

/-- The per-pixel grey mask of `ChangeStreetColor.__call__`. -/
def greyMaskPixel (p : Pixel) : Bool :=
  pixelGE p lower_grey && pixelLE p upper_grey

/-- The mask array `np.all(img >= lower, -1) & np.all(img <= upper, -1)`. -/
def greyMask (img : ImageData) : List (List Bool) :=
  img.map (fun row => row.map greyMaskPixel)

/-- `image_np[mask] = brown_color`: replace the masked pixels. -/
def applyBrown (img : ImageData) (mask : List (List Bool)) : ImageData :=
  List.zipWith (fun row mrow =>
    List.zipWith (fun p m => if m then brown_color else p) row mrow) img mask

/-- `ChangeStreetColor.__call__`: recolor the grey band to brown, label
untouched. -/
def ChangeStreetColor (image : ImageData) (label : Label) : Sample :=
  (applyBrown image (greyMask image), label)

/-- `ComposeTransformations.__call__`: iterate the transforms in order,
feeding each one's output pair to the next. -/
def ComposeTransformations (ts : List (Sample → Sample)) (s : Sample) :
    Sample :=
  ts.foldl (fun acc t => t acc) s

/-- Match the first regex alternative `[-+]?\d*\.\d+` at the head of `s`:
an optional sign, a greedy digit run, a dot, a nonempty digit run.
Returns the matched token and the rest. -/
def matchFloatTok (s : List Char) : Option (List Char × List Char) :=
  let (sgn, s1) : List Char × List Char :=
    match s with
    | c :: r => if c = '-' ∨ c = '+' then ([c], r) else ([], s)
    | [] => ([], [])
  let (ip, s2) := List.span Char.isDigit s1
  match s2 with
  | '.' :: s3 =>
    let (fp, s4) := List.span Char.isDigit s3
    if fp.isEmpty then none else some (sgn ++ ip ++ '.' :: fp, s4)
  | _ => none

/-- Match the second regex alternative `\d+` at the head of `s`. -/
def matchIntTok (s : List Char) : Option (List Char × List Char) :=
  let (ds, rest) := List.span Char.isDigit s
  if ds.isEmpty then none else some (ds, rest)

/-- `re.findall(r"[-+]?\d*\.\d+|\d+", ·)`: scan left to right; at each
position try the decimal alternative first, then the integer alternative;
on a match continue after it, otherwise advance one character.  `fuel`
bounds the recursion (the string length suffices, every step consumes at
least one character). -/
def findNumbersAux : Nat → List Char → List (List Char)
  | 0, _ => []
  | _ + 1, [] => []
  | n + 1, s =>
    match matchFloatTok s with
    | some (tok, r) => tok :: findNumbersAux n r
    | none =>
      match matchIntTok s with
      | some (tok, r) => tok :: findNumbersAux n r
      | none => findNumbersAux n s.tail

/-- All numeric tokens of the raw label string, in order of appearance. -/
def findallNums (s : String) : List (List Char) :=
  findNumbersAux s.toList.length s.toList

/-- Value of a digit run. -/
def digitsVal (ds : List Char) : Nat :=
  ds.foldl (fun a c => 10 * a + (c.toNat - 48)) 0

/-- `float(token)` for the token shapes the regex can produce, as the exact
rational `sign * (intpart + fracpart / 10 ^ |fracpart|)`, assembled as a
single integer fraction. -/
def tokToRat (t : List Char) : ℚ :=
  let (sg, t1) : Int × List Char :=
    match t with
    | '-' :: r => (-1, r)
    | '+' :: r => (1, r)
    | _ => (1, t)
  let (ip, rest) := List.span Char.isDigit t1
  match rest with
  | '.' :: fp =>
    Rat.divInt (sg * ((digitsVal ip : Int) * (10 : Int) ^ fp.length + (digitsVal fp : Int)))
      ((10 : Int) ^ fp.length)
  | _ => Rat.divInt (sg * (digitsVal ip : Int)) 1

/-- `np.array(re.findall(r"[-+]?\d*\.\d+|\d+", label), dtype=float)`
(data.py line 218): the parsed label field sequence. -/
def parseLabel (s : String) : Label :=
  (findallNums s).map tokToRat

/-- The error classes a dataset operation can raise: `FileNotFoundError`
at construction, `IndexError` from `iloc`, and the image open/decode
failures of `Image.open`. -/
inductive DataError where
  | notFound
  | indexError
  | decodeError
  deriving DecidableEq, Repr

/-- One row of `data_log.csv`: both columns read as plain strings
(`dtype={'image_filename': str, 'action': str}`). -/
structure Row where
  image_filename : String
  action : String
  deriving DecidableEq, Repr

/-- A stored image file: its pixel grid, a pixel holding the channel
values of the file's own mode (1 = greyscale, 3 = RGB, 4 = RGBA). -/
abbrev StoredImage := List (List Pixel)

/-- The filesystem the dataset reads: which CSV files exist (with their
parsed rows), which image files exist (with their pixel grids), and which
directories exist. -/
structure FileSystem where
  csvs : List (String × List Row)
  imageFiles : List (String × StoredImage)
  dirs : List String

/-- `pd.read_csv(path, dtype=...)`: returns the table, or raises
`FileNotFoundError` when the file does not exist. -/
def read_csv (fs : FileSystem) (path : String) : Except DataError (List Row) :=
  match fs.csvs.lookup path with
  | some rows => .ok rows
  | none => .error .notFound

/-- `PIL.Image.convert("RGB")` on one pixel: greyscale is replicated to
three channels, an alpha channel is dropped, an RGB pixel is kept. -/
def toRGBPixel (p : Pixel) : Pixel :=
  match p with
  | [v] => [v, v, v]
  | [r, g, b] => [r, g, b]
  | [r, g, b, _] => [r, g, b]
  | _ => [0, 0, 0]

/-- `Image.convert("RGB")` over the whole grid. -/
def convertRGB (f : StoredImage) : ImageData :=
  f.map (fun row => row.map toRGBPixel)

/-- `Image.open(path).convert("RGB")`: raises when the file is missing or
undecodable, else yields the 3-channel image. -/
def openRGB (fs : FileSystem) (path : String) : Except DataError ImageData :=
  match fs.imageFiles.lookup path with
  | some f => .ok (convertRGB f)
  | none => .error .decodeError

/-- The effective position used by pandas `iloc` for an integer index:
negative indices count from the end. -/
def ilocIndex (n : Nat) (i : Int) : Int :=
  if i < 0 then (n : Int) + i else i

/-- `DataFrame.iloc[index]` for an integer index: accepts exactly the
indices in `[-n, n)`, raising `IndexError` outside. -/
def iloc (rows : List Row) (i : Int) : Except DataError Row :=
  if h : 0 ≤ ilocIndex rows.length i ∧ ilocIndex rows.length i < (rows.length : Int) then
    .ok (rows.get ⟨(ilocIndex rows.length i).toNat, by omega⟩)
  else
    .error .indexError

/-- The state `CarDataset.__init__` stores. -/
structure CarDataset where
  root : String
  images_path : String
  label_path : String
  labels : List Row
  transform : Option (ImageData → Label → Sample)

/-- `CarDataset.__init__`: join the paths, read the label table (the only
filesystem access — neither the root nor the images directory is
checked), store the transform. -/
def CarDataset.init (fs : FileSystem) (root : String)
    (transform : Option (ImageData → Label → Sample)) :
    Except DataError CarDataset :=
  let images_path := root ++ "/images"
  let label_path := root ++ "/data_log.csv"
  match read_csv fs label_path with
  | .error e => .error e
  | .ok labels => .ok ⟨root, images_path, label_path, labels, transform⟩

/-- `CarDataset.__len__`. -/
def CarDataset.lenOf (ds : CarDataset) : Nat :=
  ds.labels.length

/-- `CarDataset.__getitem__` (data.py lines 214-223): row lookup by
`iloc`, image open + RGB conversion, regex label parse, optional
transform. -/
def CarDataset.getitem (fs : FileSystem) (ds : CarDataset) (index : Int) :
    Except DataError Sample :=
  match iloc ds.labels index with
  | .error e => .error e
  | .ok row =>
    match openRGB fs (ds.images_path ++ "/" ++ row.image_filename) with
    | .error e => .error e
    | .ok image =>
      match ds.transform with
      | some t => .ok (t image (parseLabel row.action))
      | none => .ok (image, parseLabel row.action)

/-! Concrete fixtures: a one-row dataset over a tiny filesystem, used to
instantiate the general theorems. -/

/-- A row whose action string holds four integer literals. -/
def rowGo : Row := ⟨"img0.png", "go 1 2 3 4"⟩

/-- A row whose action string holds no numeric literal. -/
def rowForward : Row := ⟨"img0.png", "forward"⟩

/-- A row whose action string holds a single numeric literal. -/
def rowSpeed : Row := ⟨"img0.png", "speed=0.75"⟩

/-- A stored one-pixel RGB image inside the grey band. -/
def greyImageFile : StoredImage := [[[150, 150, 150]]]

/-- A filesystem with the label table, the image file and both
directories present. -/
def fsMain : FileSystem :=
  ⟨[("root/data_log.csv", [rowGo])], [("root/images/img0.png", greyImageFile)],
    ["root", "root/images"]⟩

/-- A filesystem whose `root/images` directory does not exist, while the
root directory and the label table do. -/
def fsNoImagesDir : FileSystem :=
  ⟨[("root/data_log.csv", [rowGo])], [], ["root"]⟩

/-- The dataset state over `rowGo`, no transform configured. -/
def dsGo : CarDataset :=
  ⟨"root", "root/images", "root/data_log.csv", [rowGo], none⟩

/-- The dataset state over `rowForward`, no transform configured. -/
def dsForward : CarDataset :=
  ⟨"root", "root/images", "root/data_log.csv", [rowForward], none⟩

/-- The dataset state over `rowSpeed`, no transform configured. -/
def dsSpeed : CarDataset :=
  ⟨"root", "root/images", "root/data_log.csv", [rowSpeed], none⟩

/-! Helper lemmas. -/

deriving instance DecidableEq for Except

/-- Pointwise description of `List.zipWith` through `getElem?`. -/
lemma zipWith_getElem?_some {α β γ : Type} (f : α → β → γ) :
    ∀ (l1 : List α) (l2 : List β) (i : Nat) (x : α) (y : β),
      l1[i]? = some x → l2[i]? = some y →
      (List.zipWith f l1 l2)[i]? = some (f x y) := by
  intro l1
  induction l1 with
  | nil => intro l2 i x y h1 _; simp at h1
  | cons a t ih =>
    intro l2 i x y h1 h2
    cases l2 with
    | nil => simp at h2
    | cons b t2 =>
      cases i with
      | zero =>
        simp only [List.getElem?_cons_zero, Option.some.injEq] at h1 h2
        simp [List.zipWith, h1, h2]
      | succ n =>
        simp only [List.getElem?_cons_succ] at h1 h2
        simpa [List.zipWith] using ih t2 n x y h1 h2

/-- On a 3-channel pixel the grey mask is exactly the band condition. -/
lemma greyMaskPixel_iff (p : Pixel) (hp : p.length = 3) :
    greyMaskPixel p = true ↔ ∀ v ∈ p, 100 ≤ v ∧ v ≤ 200 := by
  obtain ⟨a, b, c, rfl⟩ := List.length_eq_three.mp hp
  simp [greyMaskPixel, pixelGE, pixelLE, lower_grey, upper_grey]
  tauto

/-- `convert("RGB")` always yields 3-channel pixels. -/
lemma toRGBPixel_length (p : Pixel) : (toRGBPixel p).length = 3 := by
  unfold toRGBPixel
  split <;> rfl

/-- `iloc` raises exactly outside `[-n, n)`. -/
lemma iloc_error_iff (rows : List Row) (i : Int) :
    iloc rows i = .error .indexError ↔
      i < -(rows.length : Int) ∨ (rows.length : Int) ≤ i := by
  unfold iloc
  split_ifs with h
  · have hr : ¬(i < -(rows.length : Int) ∨ (rows.length : Int) ≤ i) := by
      unfold ilocIndex at h
      split_ifs at h <;> omega
    simp [hr]
  · have hr : i < -(rows.length : Int) ∨ (rows.length : Int) ≤ i := by
      unfold ilocIndex at h
      rw [not_and_or] at h
      split_ifs at h <;> omega
    simp [hr]

/-- `iloc` in the accepted range returns the row at the effective
position. -/
lemma iloc_eq_ok (rows : List Row) (i j : Int) (hj : ilocIndex rows.length i = j)
    (h0 : 0 ≤ j) (hlt : j < (rows.length : Int)) :
    iloc rows i = .ok (rows.get ⟨j.toNat, by omega⟩) := by
  subst hj
  unfold iloc
  rw [dif_pos ⟨h0, hlt⟩]

/-- `iloc` can only raise `IndexError`. -/
lemma iloc_error_elim (rows : List Row) (i : Int) (e : DataError)
    (h : iloc rows i = .error e) : e = .indexError := by
  unfold iloc at h
  split_ifs at h
  cases h
  rfl

/-- `Image.open` can only raise the decode-failure class. -/
lemma openRGB_error_elim (fs : FileSystem) (p : String) (e : DataError)
    (h : openRGB fs p = .error e) : e = .decodeError := by
  unfold openRGB at h
  cases hl : List.lookup p fs.imageFiles <;> (rw [hl] at h; simp_all)

/-- A successfully opened image consists of 3-channel pixels. -/
lemma openRGB_channels (fs : FileSystem) (p : String) (img : ImageData)
    (h : openRGB fs p = .ok img) :
    ∀ imrow ∈ img, ∀ q ∈ imrow, q.length = 3 := by
  unfold openRGB at h
  cases hf : fs.imageFiles.lookup p with
  | none => rw [hf] at h; cases h
  | some f =>
    rw [hf] at h
    cases h
    intro imrow hrow q hq
    unfold convertRGB at hrow
    obtain ⟨srow, _, rfl⟩ := List.mem_map.mp hrow
    obtain ⟨sq, _, rfl⟩ := List.mem_map.mp hq
    exact toRGBPixel_length sq

/-- `getitem` raises `IndexError` exactly when `iloc` does: outside
`[-n, n)`. -/
lemma getitem_indexError_iff (fs : FileSystem) (ds : CarDataset) (i : Int) :
    CarDataset.getitem fs ds i = .error .indexError ↔
      i < -(ds.labels.length : Int) ∨ (ds.labels.length : Int) ≤ i := by
  unfold CarDataset.getitem
  cases hiloc : iloc ds.labels i with
  | error e =>
    have he := iloc_error_elim ds.labels i e hiloc
    subst he
    simp [(iloc_error_iff ds.labels i).mp hiloc]
  | ok row =>
    have hr : ¬(i < -(ds.labels.length : Int) ∨ (ds.labels.length : Int) ≤ i) := by
      intro hout
      rw [(iloc_error_iff ds.labels i).mpr hout] at hiloc
      cases hiloc
    cases hop : openRGB fs (ds.images_path ++ "/" ++ row.image_filename) with
    | error e =>
      have he := openRGB_error_elim fs _ e hop
      subst he
      simp [hr, hop]
    | ok image =>
      cases htr : ds.transform <;> simp [hr, hop, htr]

/-- Closed form of the sequential label update under a fired flip: the
second conditional re-fires on the result of the first, so any label with
field 2 equal to 1 or field 3 equal to 1 ends at `(1, 0)`. -/
lemma hflipLabel_eq (l : Label) (hlen : 4 ≤ l.length) :
    hflipLabel l
      = some (if l.getD 2 0 = 1 ∨ l.getD 3 0 = 1 then (l.set 2 1).set 3 0 else l) := by
  have h2 : 2 < l.length := by omega
  have h3 : 3 < l.length := by omega
  have he2 : l[2]? = some l[2] := List.getElem?_eq_getElem h2
  have he3 : l[3]? = some l[3] := List.getElem?_eq_getElem h3
  have hg2 : l.getD 2 0 = l[2] := by simp [List.getD_eq_getElem?_getD, he2]
  have hg3 : l.getD 3 0 = l[3] := by simp [List.getD_eq_getElem?_getD, he3]
  rw [hg2, hg3]
  by_cases ha : l[2] = (1 : ℚ)
  · have hset3 : ((l.set 2 0).set 3 1)[3]? = some (1 : ℚ) :=
      List.getElem?_set_eq_of_lt _ (by simpa using h3)
    simp only [hflipLabel, he2, ha, if_pos rfl, hset3, eq_self_iff_true, true_or, if_true]
    rw [List.set_comm _ _ _ (show (3 : ℕ) ≠ 2 by omega), List.set_set, List.set_set]
  · by_cases hb : l[3] = (1 : ℚ)
    · simp only [hflipLabel, he2, ha, if_neg ha, if_false, he3, hb, if_pos rfl,
        or_true, if_true]
    · simp only [hflipLabel, he2, ha, if_neg ha, he3, hb, if_neg hb, or_self,
        if_false]

/-- C9: with probability 1.0, only a label entering with field 2 ≠ 1 and
field 3 = 1 is swapped to (1, 0); a label entering with field 2 = 1 also
leaves as (1, 0) whatever its field 3 was, because the second conditional
re-fires on the result of the first; with neither indicator set the label
is unchanged. -/
theorem c9_sequential_flip (u : ℚ) (img : ImageData) (l : Label)
    (hu : u < 1) (hlen : 4 ≤ l.length) :
    (l.getD 2 0 = 1 →
      RandomHorizontalFlipWithLabel 1 u img l
        = some (hflipImage img, (l.set 2 1).set 3 0))
    ∧ (l.getD 2 0 ≠ 1 → l.getD 3 0 = 1 →
      RandomHorizontalFlipWithLabel 1 u img l
        = some (hflipImage img, (l.set 2 1).set 3 0))
    ∧ (l.getD 2 0 ≠ 1 → l.getD 3 0 ≠ 1 →
      RandomHorizontalFlipWithLabel 1 u img l = some (hflipImage img, l)) := by
  have hflip := hflipLabel_eq l hlen
  refine ⟨fun ha => ?_, fun ha hb => ?_, fun ha hb => ?_⟩
  · unfold RandomHorizontalFlipWithLabel
    rw [if_pos hu, hflip, if_pos (Or.inl ha)]
  · unfold RandomHorizontalFlipWithLabel
    rw [if_pos hu, hflip, if_pos (Or.inr hb)]
  · unfold RandomHorizontalFlipWithLabel
    rw [if_pos hu, hflip, if_neg (by tauto)]

/-- C9 witness: the concrete swap case (0, 1) to (1, 0). -/
theorem c9_witness :
    RandomHorizontalFlipWithLabel 1 0 [[[10, 20, 30]]] [5, 7, 0, 1]
      = some (hflipImage [[[10, 20, 30]]], (([5, 7, 0, 1] : Label).set 2 1).set 3 0) :=
  (c9_sequential_flip 0 [[[10, 20, 30]]] [5, 7, 0, 1] (by decide) (by decide)).2.1
    (by decide) (by decide)

/-- C1: evaluation of the code at the failing input of the claim.  The
claim (and the comments in the source) say a label `[x, y, 1, 0]` under a
fired horizontal flip becomes `[x, y, 0, 1]`; the code returns it
unchanged, because the second conditional re-fires on the result of the
first. -/
theorem c1_code_eval :
    RandomHorizontalFlipWithLabel 1 0 [[[10, 20, 30], [40, 50, 60]]] [5, 7, 1, 0]
      = some ([[[40, 50, 60], [10, 20, 30]]], [5, 7, 1, 0])
    ∧ ([5, 7, 1, 0] : Label) ≠ [5, 7, 0, 1] := by
  decide

/-- C2 counterexample: the integer alternative of the regex carries no
sign, so the claimed output `[0.75, -12]` is not produced. -/
theorem c2_counterexample :
    parseLabel "forward, speed=0.75, steer=-12" ≠ [Rat.divInt 3 4, -12] := by
  decide

/-- C2 (amended): the parser extracts signed or unsigned decimal-point
literals and unsigned integer literals in order of appearance; the sign
before a bare integer is dropped, so the example yields `[0.75, 12]`. -/
theorem c2_amended :
    parseLabel "forward, speed=0.75, steer=-12" = [Rat.divInt 3 4, 12] := by
  decide

/-- C3 counterexample: a row whose action string has no numeric literal
does not raise a parse error; `get` returns a result. -/
theorem c3_counterexample :
    (CarDataset.getitem fsMain dsForward 0).isOk = true
    ∧ findallNums rowForward.action = [] := by
  decide

/-- C3 (amended): on a row whose label string has no numeric literal,
`get` silently returns the sample with an empty (length-0) label vector
instead of failing. -/
theorem c3_amended (fs : FileSystem) (ds : CarDataset) (i : Int) (row : Row)
    (img : ImageData) (ht : ds.transform = none)
    (hrow : iloc ds.labels i = .ok row)
    (hnone : findallNums row.action = [])
    (himg : openRGB fs (ds.images_path ++ "/" ++ row.image_filename) = .ok img) :
    CarDataset.getitem fs ds i = .ok (img, ([] : Label)) := by
  simp [CarDataset.getitem, hrow, himg, ht, parseLabel, hnone]

/-- C3 witness: the amended theorem at the concrete no-digit row. -/
theorem c3_witness :
    CarDataset.getitem fsMain dsForward 0 = .ok ([[[150, 150, 150]]], ([] : Label)) :=
  c3_amended fsMain dsForward 0 rowForward [[[150, 150, 150]]] rfl (by decide)
    (by decide) (by decide)

/-- C4: the color remap replaces exactly the pixels whose three channel
values all lie in [100, 200] with the fixed brown (139, 69, 19), leaves
every other pixel unchanged, and leaves the label unchanged. -/
theorem c4_color_remap (image : ImageData) (label : Label) (r c : Nat) (p : Pixel)
    (hp : p.length = 3)
    (hpx : image[r]?.bind (fun imrow => imrow[c]?) = some p) :
    ((ChangeStreetColor image label).1[r]?.bind (fun imrow => imrow[c]?)
      = some (if ∀ v ∈ p, 100 ≤ v ∧ v ≤ 200 then brown_color else p))
    ∧ (ChangeStreetColor image label).2 = label := by
  cases him : image[r]? with
  | none => rw [him] at hpx; simp at hpx
  | some imrow =>
    rw [him] at hpx
    simp only [Option.some_bind] at hpx
    refine ⟨?_, rfl⟩
    have hmaskr : (greyMask image)[r]? = some (imrow.map greyMaskPixel) := by
      unfold greyMask
      rw [List.getElem?_map, him]
      rfl
    have hrow := zipWith_getElem?_some
      (fun prow mrow => List.zipWith (fun q m => if m then brown_color else q) prow mrow)
      image (greyMask image) r imrow (imrow.map greyMaskPixel) him hmaskr
    unfold ChangeStreetColor applyBrown
    rw [hrow]
    simp only [Option.some_bind]
    have hmc : (imrow.map greyMaskPixel)[c]? = some (greyMaskPixel p) := by
      rw [List.getElem?_map, hpx]
      rfl
    have hcell := zipWith_getElem?_some (fun q m => if m then brown_color else q)
      imrow (imrow.map greyMaskPixel) c p (greyMaskPixel p) hpx hmc
    rw [hcell]
    by_cases hband : ∀ v ∈ p, 100 ≤ v ∧ v ≤ 200
    · rw [if_pos hband]
      simp [(greyMaskPixel_iff p hp).mpr hband]
    · rw [if_neg hband]
      have hb : greyMaskPixel p = false := by
        cases hgm : greyMaskPixel p
        · rfl
        · exact absurd ((greyMaskPixel_iff p hp).mp hgm) hband
      simp [hb]

/-- C4 witness: the in-band pixel (150,150,150) becomes brown, the
out-of-band pixel (50,50,50) is unchanged, the label survives. -/
theorem c4_witness :
    ((ChangeStreetColor [[[150, 150, 150], [50, 50, 50]]] [2]).1[0]?.bind
        (fun imrow => imrow[0]?) = some brown_color)
    ∧ ((ChangeStreetColor [[[150, 150, 150], [50, 50, 50]]] [2]).1[0]?.bind
        (fun imrow => imrow[1]?) = some [50, 50, 50])
    ∧ (ChangeStreetColor [[[150, 150, 150], [50, 50, 50]]] [2]).2 = [2] :=
  ⟨(c4_color_remap [[[150, 150, 150], [50, 50, 50]]] [2] 0 0 [150, 150, 150]
      (by decide) (by decide)).1,
   (c4_color_remap [[[150, 150, 150], [50, 50, 50]]] [2] 0 1 [50, 50, 50]
      (by decide) (by decide)).1,
   (c4_color_remap [[[150, 150, 150], [50, 50, 50]]] [2] 0 0 [150, 150, 150]
      (by decide) (by decide)).2⟩

/-- C5: the pipeline folds its transform list left-to-right feeding each
output pair onward, the empty list is the identity, folding distributes
over list append, and in particular applying [A, B, C] equals applying
[A, B] and then [C]. -/
theorem c5_compose :
    (∀ s : Sample, ComposeTransformations [] s = s)
    ∧ (∀ (t : Sample → Sample) (ts : List (Sample → Sample)) (s : Sample),
        ComposeTransformations (t :: ts) s = ComposeTransformations ts (t s))
    ∧ (∀ (ts1 ts2 : List (Sample → Sample)) (s : Sample),
        ComposeTransformations (ts1 ++ ts2) s
          = ComposeTransformations ts2 (ComposeTransformations ts1 s))
    ∧ (∀ (A B C : Sample → Sample) (s : Sample),
        ComposeTransformations [A, B, C] s
          = ComposeTransformations [C] (ComposeTransformations [A, B] s)) := by
  refine ⟨fun s => rfl, fun t ts s => rfl, ?_, fun A B C s => rfl⟩
  intro ts1 ts2 s
  simp [ComposeTransformations, List.foldl_append]

/-- C6 counterexample: index -1 is outside [0, len) yet `get` succeeds
on a one-row dataset, refuting the claimed equivalence. -/
theorem c6_counterexample :
    CarDataset.getitem fsMain dsGo (-1) = .ok ([[[150, 150, 150]]], [1, 2, 3, 4])
    ∧ ¬((0 : Int) ≤ -1) := by
  decide

/-- C6 (amended): `get` fails with the IndexError class exactly when the
index is outside [-len, len); pandas-style negative indices are accepted. -/
theorem c6_amended (fs : FileSystem) (ds : CarDataset) (i : Int) :
    CarDataset.getitem fs ds i = .error .indexError ↔
      i < -(ds.lenOf : Int) ∨ (ds.lenOf : Int) ≤ i := by
  simpa [CarDataset.lenOf] using getitem_indexError_iff fs ds i

/-- C6 witness: `get(len(dataset))` fails with the out-of-range error. -/
theorem c6_witness :
    CarDataset.getitem fsMain dsGo 1 = .error .indexError :=
  (c6_amended fsMain dsGo 1).mpr (by decide)

/-- C7 counterexample: construction succeeds although the images
subdirectory does not exist (only the label table is read). -/
theorem c7_counterexample :
    (CarDataset.init fsNoImagesDir "root" none).isOk = true
    ∧ "root/images" ∉ fsNoImagesDir.dirs
    ∧ "root" ∈ fsNoImagesDir.dirs := by
  decide

/-- C7 (amended): construction fails with the NotFoundError class exactly
when the label table file `<root>/data_log.csv` is missing; when it is
present the constructed state is returned, the images directory never
being checked. -/
theorem c7_amended (fs : FileSystem) (root : String)
    (tr : Option (ImageData → Label → Sample)) :
    (CarDataset.init fs root tr = .error .notFound ↔
      fs.csvs.lookup (root ++ "/data_log.csv") = none)
    ∧ (∀ rows, fs.csvs.lookup (root ++ "/data_log.csv") = some rows →
        CarDataset.init fs root tr
          = .ok ⟨root, root ++ "/images", root ++ "/data_log.csv", rows, tr⟩) := by
  constructor
  · cases h : fs.csvs.lookup (root ++ "/data_log.csv") <;>
      simp [CarDataset.init, read_csv, h]
  · intro rows hr
    simp [CarDataset.init, read_csv, hr]

/-- C7 witness: construction over the concrete filesystem returns the
stored state. -/
theorem c7_witness :
    CarDataset.init fsMain "root" none
      = .ok ⟨"root", "root" ++ "/images", "root" ++ "/data_log.csv", [rowGo], none⟩ :=
  (c7_amended fsMain "root" none).2 [rowGo] (by decide)

/-- C8 counterexample: a successful `get` whose label has 1 field, not 4
(the field count is whatever the regex finds in the action string). -/
theorem c8_counterexample :
    CarDataset.getitem fsMain dsSpeed 0 = .ok ([[[150, 150, 150]]], [Rat.divInt 3 4])
    ∧ ([Rat.divInt 3 4] : Label).length ≠ 4 := by
  decide

/-- C8 (amended): with no transform configured, a successful `get` always
returns an image of 3-channel pixels, and a label equal to the parse of
the row's action string — so with as many fields as that string has
numeric literals, 4 only when there are 4. -/
theorem c8_amended (fs : FileSystem) (ds : CarDataset) (i : Int) (row : Row)
    (img : ImageData) (label : Label) (ht : ds.transform = none)
    (hrow : iloc ds.labels i = .ok row)
    (h : CarDataset.getitem fs ds i = .ok (img, label)) :
    (∀ imrow ∈ img, ∀ p ∈ imrow, p.length = 3)
    ∧ label = parseLabel row.action
    ∧ label.length = (findallNums row.action).length := by
  simp only [CarDataset.getitem, hrow, ht] at h
  cases hop : openRGB fs (ds.images_path ++ "/" ++ row.image_filename) with
  | error e => rw [hop] at h; cases h
  | ok image =>
    rw [hop] at h
    have h' : Except.ok (ε := DataError) (image, parseLabel row.action)
        = Except.ok (img, label) := h
    injection h' with h'
    injection h' with h1 h2
    subst h1
    subst h2
    exact ⟨openRGB_channels fs _ image hop, rfl, by simp [parseLabel]⟩

/-- C8 witness: the amended theorem at the four-literal row. -/
theorem c8_witness :
    (∀ imrow ∈ ([[[150, 150, 150]]] : ImageData), ∀ p ∈ imrow, p.length = 3)
    ∧ ([1, 2, 3, 4] : Label) = parseLabel rowGo.action
    ∧ ([1, 2, 3, 4] : Label).length = (findallNums rowGo.action).length :=
  c8_amended fsMain dsGo 0 rowGo [[[150, 150, 150]]] [1, 2, 3, 4] rfl
    (by decide) (by decide)

/-- C10: a negative index in [-n, -1] is accepted: `get(i)` is not
rejected as out of range and behaves exactly as `get(n + i)`, returning
the sample at position n + i. -/
theorem c10_negative_index (fs : FileSystem) (ds : CarDataset) (i : Int)
    (hn : 1 ≤ ds.lenOf) (h1 : -(ds.lenOf : Int) ≤ i) (h2 : i ≤ -1) :
    CarDataset.getitem fs ds i
      = CarDataset.getitem fs ds ((ds.lenOf : Int) + i)
    ∧ CarDataset.getitem fs ds i ≠ .error .indexError := by
  simp only [CarDataset.lenOf] at hn h1 h2 ⊢
  constructor
  · have hiloc1 : iloc ds.labels i
        = .ok (ds.labels.get ⟨((ds.labels.length : Int) + i).toNat, by omega⟩) :=
      iloc_eq_ok ds.labels i ((ds.labels.length : Int) + i)
        (by unfold ilocIndex; rw [if_pos (by omega)]) (by omega) (by omega)
    have hiloc2 : iloc ds.labels ((ds.labels.length : Int) + i)
        = .ok (ds.labels.get ⟨((ds.labels.length : Int) + i).toNat, by omega⟩) :=
      iloc_eq_ok ds.labels ((ds.labels.length : Int) + i) ((ds.labels.length : Int) + i)
        (by unfold ilocIndex; rw [if_neg (by omega)]) (by omega) (by omega)
    unfold CarDataset.getitem
    rw [hiloc1, hiloc2]
  · intro hbad
    rw [getitem_indexError_iff] at hbad
    omega

/-- C10 witness: `get(-1)` on the one-row dataset equals `get(0)` and is
not an index error. -/
theorem c10_witness :
    CarDataset.getitem fsMain dsGo (-1)
      = CarDataset.getitem fsMain dsGo ((dsGo.lenOf : Int) + (-1))
    ∧ CarDataset.getitem fsMain dsGo (-1) ≠ .error .indexError :=
  c10_negative_index fsMain dsGo (-1) (by decide) (by decide) (by decide)

end Driving
